import Mathlib

/-!
Verification of the demo rate limiter and response gateway of the repository
(source: `frontend/src/app/api/chat/route.ts`).

Strings are modelled as `List Char`; epoch-millisecond timestamps as `Nat`.
The in-memory `rateLimitStore` (a JS `Map` from client IP to
`{count, resetTime}`) is modelled as a function `String → Option QuotaRecord`:
`Map.get` is application, `Map.set` is pointwise update, and `Map.delete`
inside the cleanup loop is the pointwise `sweep` below.
-/

/-! ## Input sanitizer -/

/-- The whitespace characters removed by JavaScript `String.prototype.trim`. -/
def jsWhitespaceChars : List Char :=
  ['\t', '\n', '\x0b', '\x0c', '\r', ' ', '\u00A0', '\u1680',
   '\u2000', '\u2001', '\u2002', '\u2003', '\u2004', '\u2005', '\u2006',
   '\u2007', '\u2008', '\u2009', '\u200A', '\u2028', '\u2029', '\u202F',
   '\u205F', '\u3000', '\uFEFF']

def isJsWhitespace (c : Char) : Bool := jsWhitespaceChars.contains c

/-- JavaScript `String.prototype.trim`: strip leading and trailing whitespace. -/
def jsTrim (l : List Char) : List Char :=
  ((l.dropWhile isJsWhitespace).reverse.dropWhile isJsWhitespace).reverse

/-- JavaScript `\w` word characters `[A-Za-z0-9_]`, used for the `\b` boundary. -/
def isWordChar (c : Char) : Bool := c.isAlphanum || c = '_'

/-- Case-insensitive literal match (the regex `i` flag): match `pat` (given in
lower case) against the head of `l`; on success return the rest of `l`. -/
def matchCI : List Char → List Char → Option (List Char)
  | [], rest => some rest
  | _ :: _, [] => none
  | p :: ps, c :: cs => if c.toLower = p then matchCI ps cs else none

/-- The `\b` after `<script`: the next character is a non-word character or
the end of the string (the preceding `t` is a word character). -/
def wordBoundaryAfter : List Char → Bool
  | [] => true
  | c :: _ => !(isWordChar c)

/-- The part `[^<]*(?:(?!<\/script>)<[^<]*)*<\/script>` of the script regex:
skip non-`<` characters; at each `<` either the closing `</script>` matches
(ending the whole match) or the `<` is consumed by the inner group.  The
pattern is deterministic: every backtracking choice point is forced. -/
def scriptBody : List Char → Option (List Char)
  | [] => none
  | c :: cs =>
    if c = '<' then
      match matchCI ['<', '/', 's', 'c', 'r', 'i', 'p', 't', '>'] (c :: cs) with
      | some rest => some rest
      | none => scriptBody cs
    else scriptBody cs

/-- Try to match `/<script\b[^<]*(?:(?!<\/script>)<[^<]*)*<\/script>/i` at the
head of `l`; on success return the remainder after the matched fragment. -/
def matchScriptAt (l : List Char) : Option (List Char) :=
  match matchCI ['<', 's', 'c', 'r', 'i', 'p', 't'] l with
  | none => none
  | some rest => if wordBoundaryAfter rest then scriptBody rest else none

/-- Global (`g` flag) replacement of the script regex by the empty string,
structured with a fuel argument (initialised to the input length, which the
length lemmas below show is always enough). -/
def removeScriptsAux : Nat → List Char → List Char
  | 0, l => l
  | _ + 1, [] => []
  | fuel + 1, c :: cs =>
    match matchScriptAt (c :: cs) with
    | some rest => removeScriptsAux fuel rest
    | none => c :: removeScriptsAux fuel cs

def removeScripts (l : List Char) : List Char := removeScriptsAux l.length l

/-- `.replace(/[<>]/g, '')`: remove every angle bracket. -/
def removeAngles (l : List Char) : List Char :=
  l.filter (fun c => !(c = '<' || c = '>'))

/-- `sanitizeInput` from the source: trim, strip `<script>...</script>`
fragments, strip angle brackets, truncate to 1000 characters, in that order. -/
def sanitizeInput (l : List Char) : List Char :=
  (removeAngles (removeScripts (jsTrim l))).take 1000

/-! ## Quota tracker -/

structure QuotaRecord where
  count : Nat
  resetTime : Nat
deriving DecidableEq

abbrev Store := String → Option QuotaRecord

def emptyStore : Store := fun _ => none

def dailyLimit : Nat := 50

/-- 24 hours in milliseconds: `24 * 60 * 60 * 1000`. -/
def windowMs : Nat := 24 * 60 * 60 * 1000

/-- The lazy cleanup loop: delete every entry whose window has expired
(`now > resetTime`, strict comparison as in the source). -/
def sweep (now : Nat) (s : Store) : Store := fun k =>
  match s k with
  | none => none
  | some r => if now > r.resetTime then none else some r

def setStore (s : Store) (ip : String) (r : QuotaRecord) : Store :=
  fun k => if k = ip then some r else s k

structure RateLimitResult where
  allowed : Bool
  remaining : Nat
deriving DecidableEq

/-- `checkRateLimit` from the source.  Returns the result together with the
new state of the shared store.  `Nat` subtraction saturates at 0, which agrees
with the source because `remaining` is only computed when it is nonnegative. -/
def checkRateLimit (ip : String) (now : Nat) (store : Store) :
    RateLimitResult × Store :=
  match sweep now store ip with
  | none =>
      (⟨true, dailyLimit - 1⟩, setStore (sweep now store) ip ⟨1, now + windowMs⟩)
  | some u =>
      if now > u.resetTime then
        (⟨true, dailyLimit - 1⟩, setStore (sweep now store) ip ⟨1, now + windowMs⟩)
      else if u.count ≥ dailyLimit then
        (⟨false, 0⟩, sweep now store)
      else
        (⟨true, dailyLimit - (u.count + 1)⟩,
         setStore (sweep now store) ip ⟨u.count + 1, u.resetTime⟩)

/-! ## HTTP layer -/

/-- A JSON response body; each field is `none` when the source object literal
omits the key.  `remaining` in the GET handler is `Math.max(0, dailyLimit -
count)`, which over `Nat` coincides with saturating subtraction. -/
structure ResponseBody where
  message : Option (List Char)
  error : Option (List Char)
  fallback : Option Bool
  remaining : Option Nat
  resetTime : Option Nat
deriving DecidableEq

structure HttpResponse where
  status : Nat
  body : ResponseBody
deriving DecidableEq

def errBody (e : List Char) : ResponseBody := ⟨none, some e, none, none, none⟩

def chatBody (m : List Char) (fb : Bool) (rem : Nat) : ResponseBody :=
  ⟨some m, none, some fb, some rem, none⟩

def quotaBody (rem rt : Nat) : ResponseBody := ⟨none, none, none, some rem, some rt⟩

def FALLBACK_RESPONSES : Fin 5 → List Char
  | 0 => "Sorry, the demo is currently unavailable. Please try again later.".toList
  | 1 => "I'm experiencing some technical difficulties right now. Please check back soon!".toList
  | 2 => "The demo service is temporarily offline. Thank you for your patience.".toList
  | 3 => "I'm currently unable to process your request. Please try again in a few moments.".toList
  | 4 => "Our demo is taking a short break! Please come back later.".toList

def LIMIT_MESSAGE : List Char :=
  "You've reached the daily demo limit of 50 messages. Please try again tomorrow!".toList

def MSG_REQUIRED : List Char := "Message is required and must be a string".toList

def MSG_INVALID : List Char := "Invalid message content".toList

/-- The `message` field of the parsed request body.  `missing` covers absence
and every falsy non-string value (`undefined`, `null`, `0`, `false`, `NaN`);
`nonString` covers truthy non-string values; both fail the source check
`!message || typeof message !== 'string'`.  An empty string is falsy and also
fails that check. -/
inductive MsgField
  | missing
  | nonString
  | str (m : List Char)
deriving DecidableEq

/-- Behaviour of the upstream Gemini call for one request: it resolves with
text `t`, rejects with an error, or never settles.  The source awaits it with
no timeout, so `hang` makes the handler wait forever. -/
inductive Upstream
  | text (t : List Char)
  | err
  | hang
deriving DecidableEq

/-- The GET handler.  `fault` injects the unexpected internal failure that the
outer `catch` turns into the 500 response `{remaining: 0, resetTime: now+24h}`.
On the normal path the handler runs the cleanup sweep on the shared store
(its only mutation) and reports without consuming quota. -/
def GET (ip : String) (now : Nat) (fault : Bool) (s : Store) :
    HttpResponse × Store :=
  if fault then
    (⟨500, quotaBody 0 (now + windowMs)⟩, s)
  else
    match sweep now s ip with
    | none => (⟨200, quotaBody dailyLimit (now + windowMs)⟩, sweep now s)
    | some u =>
        if now > u.resetTime then
          (⟨200, quotaBody dailyLimit (now + windowMs)⟩, sweep now s)
        else
          (⟨200, quotaBody (dailyLimit - u.count) u.resetTime⟩, sweep now s)

/-- The POST handler.  `body = none` means `request.json()` threw (absent or
unparseable body), which is the only statement in the outer `try` that can
throw, so it is what reaches the outer `catch` (500 with a random fallback
message).  `apiKey` is whether `GEMINI_API_KEY` is set; `rand` models
`Math.floor(Math.random() * FALLBACK_RESPONSES.length)`.  The result is `none`
exactly when the handler never responds (awaiting a hung upstream call). -/
def POST (body : Option MsgField) (ip : String) (now : Nat) (apiKey : Bool)
    (upstream : Upstream) (rand : Fin 5) (s : Store) :
    Option HttpResponse × Store :=
  match body with
  | none => (some ⟨500, chatBody (FALLBACK_RESPONSES rand) true 0⟩, s)
  | some .missing => (some ⟨400, errBody MSG_REQUIRED⟩, s)
  | some .nonString => (some ⟨400, errBody MSG_REQUIRED⟩, s)
  | some (.str m) =>
      if m = [] then (some ⟨400, errBody MSG_REQUIRED⟩, s)
      else if sanitizeInput m = [] then (some ⟨400, errBody MSG_INVALID⟩, s)
      else if (checkRateLimit ip now s).1.allowed = false then
        (some ⟨200, chatBody LIMIT_MESSAGE true 0⟩, (checkRateLimit ip now s).2)
      else if apiKey = false then
        (some ⟨200, chatBody (FALLBACK_RESPONSES rand) true
           (checkRateLimit ip now s).1.remaining⟩, (checkRateLimit ip now s).2)
      else
        match upstream with
        | .text t =>
            if t = [] then
              (some ⟨200, chatBody (FALLBACK_RESPONSES rand) true
                 (checkRateLimit ip now s).1.remaining⟩, (checkRateLimit ip now s).2)
            else
              (some ⟨200, chatBody t false (checkRateLimit ip now s).1.remaining⟩,
               (checkRateLimit ip now s).2)
        | .err =>
            (some ⟨200, chatBody (FALLBACK_RESPONSES rand) true
               (checkRateLimit ip now s).1.remaining⟩, (checkRateLimit ip now s).2)
        | .hang => (none, (checkRateLimit ip now s).2)

/-! ## Helper lemmas -/

theorem sweep_none (now : Nat) (s : Store) (k : String) (h : s k = none) :
    sweep now s k = none := by
  simp [sweep, h]

theorem sweep_live (now : Nat) (s : Store) (k : String) (r : QuotaRecord)
    (h : s k = some r) (hl : now ≤ r.resetTime) : sweep now s k = some r := by
  simp [sweep, h]
  omega

theorem sweep_expired (now : Nat) (s : Store) (k : String) (r : QuotaRecord)
    (h : s k = some r) (he : r.resetTime < now) : sweep now s k = none := by
  simp [sweep, h]
  omega

theorem sweep_some (now : Nat) (s : Store) (k : String) (r : QuotaRecord)
    (h : sweep now s k = some r) : s k = some r ∧ now ≤ r.resetTime := by
  unfold sweep at h
  cases hs : s k with
  | none => rw [hs] at h; simp at h
  | some r0 =>
      rw [hs] at h
      by_cases hgt : now > r0.resetTime
      · simp [hgt] at h
      · have hr : r0 = r := by
          by_contra hne
          simp [hgt, hne] at h
        subst hr
        exact ⟨rfl, by omega⟩

theorem sweep_sweep (t T : Nat) (s : Store) (hle : t ≤ T) :
    sweep T (sweep t s) = sweep T s := by
  funext k
  unfold sweep
  cases hs : s k with
  | none => rfl
  | some r =>
      by_cases h1 : t > r.resetTime
      · by_cases h2 : T > r.resetTime
        · simp [h1, h2]
        · omega
      · simp [h1]

theorem checkRateLimit_fresh (ip : String) (now : Nat) (s : Store)
    (h : sweep now s ip = none) :
    checkRateLimit ip now s =
      (⟨true, dailyLimit - 1⟩, setStore (sweep now s) ip ⟨1, now + windowMs⟩) := by
  unfold checkRateLimit
  rw [h]

theorem checkRateLimit_incr (ip : String) (now : Nat) (s : Store) (r : QuotaRecord)
    (h : sweep now s ip = some r) (hc : r.count < dailyLimit) :
    checkRateLimit ip now s =
      (⟨true, dailyLimit - (r.count + 1)⟩,
       setStore (sweep now s) ip ⟨r.count + 1, r.resetTime⟩) := by
  have hlive := (sweep_some now s ip r h).2
  unfold checkRateLimit
  rw [h]
  have h1 : ¬ now > r.resetTime := by omega
  have h2 : ¬ r.count ≥ dailyLimit := by omega
  simp [h1, h2]

theorem checkRateLimit_full (ip : String) (now : Nat) (s : Store) (r : QuotaRecord)
    (h : sweep now s ip = some r) (hc : dailyLimit ≤ r.count) :
    checkRateLimit ip now s = (⟨false, 0⟩, sweep now s) := by
  have hlive := (sweep_some now s ip r h).2
  unfold checkRateLimit
  rw [h]
  have h1 : ¬ now > r.resetTime := by omega
  have h2 : r.count ≥ dailyLimit := hc
  simp [h1, h2]

theorem setStore_self (s : Store) (ip : String) (r : QuotaRecord) :
    setStore s ip r ip = some r := by
  simp [setStore]

theorem setStore_other (s : Store) (ip k : String) (r : QuotaRecord) (h : k ≠ ip) :
    setStore s ip r k = s k := by
  simp [setStore, h]

theorem GET_store (ip : String) (now : Nat) (s : Store) :
    (GET ip now false s).2 = sweep now s := by
  unfold GET
  cases h : sweep now s ip with
  | none => simp [h]
  | some u => by_cases hgt : now > u.resetTime <;> simp [h, hgt]

theorem GET_fresh (ip : String) (now : Nat) (s : Store)
    (h : sweep now s ip = none) :
    (GET ip now false s).1 = ⟨200, quotaBody dailyLimit (now + windowMs)⟩ := by
  unfold GET
  simp [h]

theorem GET_live (ip : String) (now : Nat) (s : Store) (r : QuotaRecord)
    (h : sweep now s ip = some r) :
    (GET ip now false s).1 = ⟨200, quotaBody (dailyLimit - r.count) r.resetTime⟩ := by
  have hlive := (sweep_some now s ip r h).2
  unfold GET
  have h1 : ¬ now > r.resetTime := by omega
  simp [h, h1]

theorem matchScriptAt_a (l : List Char) : matchScriptAt ('a' :: l) = none := rfl

theorem dropWhile_ws_replicate_a (n : Nat) :
    List.dropWhile isJsWhitespace (List.replicate n 'a') = List.replicate n 'a' := by
  cases n with
  | zero => rfl
  | succ k => rw [List.replicate_succ]; rfl

theorem jsTrim_replicate_a (n : Nat) :
    jsTrim (List.replicate n 'a') = List.replicate n 'a' := by
  unfold jsTrim
  rw [dropWhile_ws_replicate_a, List.reverse_replicate, dropWhile_ws_replicate_a,
    List.reverse_replicate]

theorem removeScriptsAux_replicate_a (fuel n : Nat) :
    removeScriptsAux fuel (List.replicate n 'a') = List.replicate n 'a' := by
  induction fuel generalizing n with
  | zero => rfl
  | succ k ih =>
      cases n with
      | zero => rfl
      | succ j =>
          rw [List.replicate_succ]
          show 'a' :: removeScriptsAux k (List.replicate j 'a') =
            'a' :: List.replicate j 'a'
          rw [ih j]

theorem removeScripts_replicate_a (n : Nat) :
    removeScripts (List.replicate n 'a') = List.replicate n 'a' :=
  removeScriptsAux_replicate_a _ n

theorem removeAngles_replicate_a (n : Nat) :
    removeAngles (List.replicate n 'a') = List.replicate n 'a' := by
  induction n with
  | zero => rfl
  | succ k ih =>
      rw [List.replicate_succ]
      show 'a' :: removeAngles (List.replicate k 'a') = 'a' :: List.replicate k 'a'
      rw [ih]

/-! ## The claims -/

/-- C6: `sanitizeInput` is total and applies, in this fixed order: whitespace
trim, removal of every case-insensitive `<script>...</script>` fragment,
removal of all remaining angle brackets, truncation to 1000 characters.  An
input of 2000 `'a'` characters yields exactly 1000 `'a'` characters, and
`"hi <script>alert(1)</script> there"` yields `"hi  there"`.  (Totality is
expressed by `sanitizeInput` being a total function applied to arbitrary
input; the first conjunct states the fixed order of the four steps.) -/
theorem C6_sanitizeInput_contract :
    (∀ l : List Char,
       sanitizeInput l = (removeAngles (removeScripts (jsTrim l))).take 1000) ∧
    (∀ l : List Char, (sanitizeInput l).length ≤ 1000) ∧
    sanitizeInput (List.replicate 2000 'a') = List.replicate 1000 'a' ∧
    sanitizeInput ("hi <script>alert(1)</script> there".toList) = "hi  there".toList := by
  refine ⟨fun l => rfl, fun l => ?_, ?_, by decide⟩
  · unfold sanitizeInput
    rw [List.length_take]
    omega
  · unfold sanitizeInput
    rw [jsTrim_replicate_a, removeScripts_replicate_a, removeAngles_replicate_a,
      List.take_replicate]
    norm_num

/-- C1: the full contract of `checkRateLimit`.  For a caller with no record or
an expired record (`resetTime < now`) it creates/resets the record to
`count = 1, resetTime = now + 24h` and returns `allowed = true, remaining =
49`.  For a live record with `count < 50` it increments the count and returns
`remaining = 50 - (count + 1)`; a further call within the window returns a
`remaining` exactly one smaller.  For a live record with `count ≥ 50` it
returns `allowed = false, remaining = 0` and leaves the caller's stored
record unchanged, as does every further call within that window. -/
theorem C1_checkRateLimit_contract :
    ∀ (ip : String) (now : Nat) (s : Store),
      ((s ip = none ∨ ∃ r, s ip = some r ∧ r.resetTime < now) →
         (checkRateLimit ip now s).1 = ⟨true, 49⟩ ∧
         (checkRateLimit ip now s).2 ip = some ⟨1, now + windowMs⟩) ∧
      (∀ r, s ip = some r → now ≤ r.resetTime → r.count < 50 →
         (checkRateLimit ip now s).1 = ⟨true, 50 - (r.count + 1)⟩ ∧
         (checkRateLimit ip now s).2 ip = some ⟨r.count + 1, r.resetTime⟩ ∧
         (∀ t2, t2 ≤ r.resetTime → r.count + 1 < 50 →
            (checkRateLimit ip t2 ((checkRateLimit ip now s).2)).1.remaining + 1 =
              (checkRateLimit ip now s).1.remaining)) ∧
      (∀ r, s ip = some r → now ≤ r.resetTime → 50 ≤ r.count →
         (checkRateLimit ip now s).1 = ⟨false, 0⟩ ∧
         (checkRateLimit ip now s).2 ip = some r ∧
         (∀ t2, t2 ≤ r.resetTime →
            (checkRateLimit ip t2 ((checkRateLimit ip now s).2)).1 = ⟨false, 0⟩ ∧
            (checkRateLimit ip t2 ((checkRateLimit ip now s).2)).2 ip = some r)) := by
  intro ip now s
  refine ⟨?_, ?_, ?_⟩
  · intro h
    have hs : sweep now s ip = none := by
      rcases h with h | ⟨r, hr, he⟩
      · exact sweep_none now s ip h
      · exact sweep_expired now s ip r hr he
    rw [checkRateLimit_fresh ip now s hs]
    exact ⟨rfl, setStore_self _ _ _⟩
  · intro r hr hnow hc
    have hs : sweep now s ip = some r := sweep_live now s ip r hr hnow
    have e := checkRateLimit_incr ip now s r hs hc
    rw [e]
    refine ⟨rfl, setStore_self _ _ _, ?_⟩
    intro t2 ht2 hc2
    have hs2 : sweep t2 (setStore (sweep now s) ip ⟨r.count + 1, r.resetTime⟩) ip =
        some ⟨r.count + 1, r.resetTime⟩ :=
      sweep_live t2 _ ip _ (setStore_self _ _ _) ht2
    have e2 := checkRateLimit_incr ip t2 _ _ hs2 hc2
    rw [e2]
    show dailyLimit - (r.count + 1 + 1) + 1 = dailyLimit - (r.count + 1)
    unfold dailyLimit
    omega
  · intro r hr hnow hc
    have hs : sweep now s ip = some r := sweep_live now s ip r hr hnow
    have e := checkRateLimit_full ip now s r hs hc
    rw [e]
    refine ⟨rfl, hs, ?_⟩
    intro t2 ht2
    have hs2 : sweep t2 (sweep now s) ip = some r := sweep_live t2 _ ip r hs ht2
    have e2 := checkRateLimit_full ip t2 _ r hs2 hc
    rw [e2]
    exact ⟨rfl, hs2⟩

theorem C1_checkRateLimit_contract_witness :
    (checkRateLimit "a" 0 emptyStore).1 = ⟨true, 49⟩ ∧
    (checkRateLimit "a" 0 emptyStore).2 "a" = some ⟨1, 0 + windowMs⟩ :=
  (C1_checkRateLimit_contract "a" 0 emptyStore).1 (Or.inl rfl)

/-- A store holding one caller `"a"` whose window ends at time 100 with the
full daily count consumed. -/
def storeFull : Store := fun k => if k = "a" then some ⟨50, 100⟩ else none

/-- C3 counterexample: the claim says that once `count = 50`, requests are
rejected exactly while `now < windowResetAt`, and that as soon as
`now ≥ windowResetAt` the next call behaves as a first-ever call returning
`remaining = 49`.  At the boundary `now = windowResetAt` (here both 100) the
code still rejects: every comparison in the source is strict (`now >
resetTime`), so the record survives the sweep and the reset branch is not
taken. -/
theorem C3_boundary_counterexample :
    storeFull "a" = some ⟨50, 100⟩ ∧
    (100 : Nat) ≥ 100 ∧
    (checkRateLimit "a" 100 storeFull).1 = ⟨false, 0⟩ ∧
    (checkRateLimit "a" 100 storeFull).1 ≠ ⟨true, 49⟩ := by
  decide

/-- The states of the quota store reachable by the program: the empty initial
map, followed by any interleaving of `checkRateLimit` calls, GET probes and
POST requests. -/
inductive Reachable : Store → Prop
  | empty : Reachable emptyStore
  | consume (ip : String) (now : Nat) (s : Store) :
      Reachable s → Reachable (checkRateLimit ip now s).2
  | probe (ip : String) (now : Nat) (fault : Bool) (s : Store) :
      Reachable s → Reachable (GET ip now fault s).2
  | post (body : Option MsgField) (ip : String) (now : Nat) (apiKey : Bool)
      (up : Upstream) (rand : Fin 5) (s : Store) :
      Reachable s → Reachable (POST body ip now apiKey up rand s).2

theorem checkRateLimit_post_count (ip : String) (now : Nat) (s : Store)
    (k : String) (r : QuotaRecord)
    (h : (checkRateLimit ip now s).2 k = some r) :
    r.count ≤ 50 ∨ s k = some r := by
  unfold checkRateLimit at h
  cases hs : sweep now s ip with
  | none =>
      rw [hs] at h
      unfold setStore at h
      by_cases hk : k = ip
      · simp [hk] at h
        rw [← h]
        exact Or.inl (by norm_num)
      · simp [hk] at h
        exact Or.inr (sweep_some now s k r h).1
  | some u =>
      rw [hs] at h
      by_cases h1 : now > u.resetTime
      · simp only [if_pos h1] at h
        unfold setStore at h
        by_cases hk : k = ip
        · simp [hk] at h
          rw [← h]
          exact Or.inl (by norm_num)
        · simp [hk] at h
          exact Or.inr (sweep_some now s k r h).1
      · simp only [if_neg h1] at h
        by_cases h2 : u.count ≥ dailyLimit
        · simp only [if_pos h2] at h
          exact Or.inr (sweep_some now s k r h).1
        · simp only [if_neg h2] at h
          unfold setStore at h
          by_cases hk : k = ip
          · simp [hk] at h
            rw [← h]
            have : u.count < dailyLimit := by omega
            exact Or.inl (by unfold dailyLimit at this; simp; omega)
          · simp [hk] at h
            exact Or.inr (sweep_some now s k r h).1

theorem GET_post_record (ip : String) (now : Nat) (fault : Bool) (s : Store)
    (k : String) (r : QuotaRecord) (h : (GET ip now fault s).2 k = some r) :
    s k = some r := by
  cases fault with
  | true => simpa [GET] using h
  | false =>
      rw [GET_store] at h
      exact (sweep_some now s k r h).1

theorem POST_store_cases (body : Option MsgField) (ip : String) (now : Nat)
    (key : Bool) (up : Upstream) (rand : Fin 5) (s : Store) :
    (POST body ip now key up rand s).2 = s ∨
    (POST body ip now key up rand s).2 = (checkRateLimit ip now s).2 := by
  unfold POST
  cases body with
  | none => exact Or.inl rfl
  | some mf =>
      cases mf with
      | missing => exact Or.inl rfl
      | nonString => exact Or.inl rfl
      | str m =>
          by_cases h1 : m = []
          · simp [h1]
          · simp only [if_neg h1]
            by_cases h2 : sanitizeInput m = []
            · simp [h2]
            · simp only [if_neg h2]
              by_cases h3 : (checkRateLimit ip now s).1.allowed = false
              · simp [h3]
              · simp only [if_neg h3]
                by_cases h4 : key = false
                · simp [h4]
                · simp only [if_neg h4]
                  cases up with
                  | text t => by_cases h5 : t = [] <;> simp [h5]
                  | err => exact Or.inr rfl
                  | hang => exact Or.inr rfl

theorem reachable_count_le (s : Store) (hs : Reachable s) :
    ∀ k r, s k = some r → r.count ≤ 50 := by
  induction hs with
  | empty => intro k r h; simp [emptyStore] at h
  | consume ip now s0 _ ih =>
      intro k r h
      rcases checkRateLimit_post_count ip now s0 k r h with hle | hold
      · exact hle
      · exact ih k r hold
  | probe ip now fault s0 _ ih =>
      intro k r h
      exact ih k r (GET_post_record ip now fault s0 k r h)
  | post body ip now key up rand s0 _ ih =>
      intro k r h
      rcases POST_store_cases body ip now key up rand s0 with he | he
      · rw [he] at h
        exact ih k r h
      · rw [he] at h
        rcases checkRateLimit_post_count ip now s0 k r h with hle | hold
        · exact hle
        · exact ih k r hold

/-- C3 amended: in every reachable state of the quota store each record's
count lies in `[0, 50]` (the lower bound is inherent to `Nat`).  Once a
caller's count equals 50, `checkRateLimit` rejects that caller's requests
exactly while `now ≤ windowResetAt` (not `now < windowResetAt`): at the
boundary `now = windowResetAt` the call is still rejected, and only once
`now > windowResetAt` does the next call behave exactly as a first-ever
call, resetting the record and returning `remaining = 49`. -/
theorem C3_amended_invariant_and_boundary :
    (∀ s, Reachable s → ∀ k r, s k = some r → r.count ≤ 50) ∧
    (∀ ip now s r, s ip = some r → 50 ≤ r.count → now ≤ r.resetTime →
       (checkRateLimit ip now s).1 = ⟨false, 0⟩) ∧
    (∀ ip now s r, s ip = some r → r.resetTime < now →
       (checkRateLimit ip now s).1 = ⟨true, 49⟩ ∧
       (checkRateLimit ip now s).2 ip = some ⟨1, now + windowMs⟩) := by
  refine ⟨reachable_count_le, ?_, ?_⟩
  · intro ip now s r hr hc hnow
    have hs : sweep now s ip = some r := sweep_live now s ip r hr hnow
    rw [checkRateLimit_full ip now s r hs hc]
  · intro ip now s r hr he
    have hs : sweep now s ip = none := sweep_expired now s ip r hr he
    rw [checkRateLimit_fresh ip now s hs]
    exact ⟨rfl, setStore_self _ _ _⟩

theorem C3_amended_witness :
    (checkRateLimit "a" 100 storeFull).1 = ⟨false, 0⟩ ∧
    (checkRateLimit "a" 101 storeFull).1 = ⟨true, 49⟩ := by
  constructor
  · exact C3_amended_invariant_and_boundary.2.1 "a" 100 storeFull ⟨50, 100⟩
      (by decide) (by decide) (by decide)
  · exact (C3_amended_invariant_and_boundary.2.2 "a" 101 storeFull ⟨50, 100⟩
      (by decide) (by decide)).1

theorem POST_good_status (m : List Char) (ip : String) (now : Nat) (key : Bool)
    (up : Upstream) (rand : Fin 5) (s : Store)
    (hm : ¬ m = []) (hsm : ¬ sanitizeInput m = []) :
    ∀ r, (POST (some (.str m)) ip now key up rand s).1 = some r →
      r.status = 200 := by
  intro r h
  unfold POST at h
  simp only [if_neg hm, if_neg hsm] at h
  by_cases h3 : (checkRateLimit ip now s).1.allowed = false
  · simp only [if_pos h3] at h
    cases h
    rfl
  · simp only [if_neg h3] at h
    by_cases h4 : key = false
    · simp only [if_pos h4] at h
      cases h
      rfl
    · simp only [if_neg h4] at h
      cases up with
      | text t =>
          by_cases h5 : t = []
          · simp only [if_pos h5] at h
            cases h
            rfl
          · simp only [if_neg h5] at h
            cases h
            rfl
      | err =>
          cases h
          rfl
      | hang => simp at h

theorem POST_bad_response (mf : MsgField) (ip : String) (now : Nat) (key : Bool)
    (up : Upstream) (rand : Fin 5) (s : Store)
    (hbad : mf = .missing ∨ mf = .nonString ∨
      ∃ m, mf = .str m ∧ sanitizeInput m = []) :
    (POST (some mf) ip now key up rand s).1 = some ⟨400, errBody MSG_REQUIRED⟩ ∨
    (POST (some mf) ip now key up rand s).1 = some ⟨400, errBody MSG_INVALID⟩ := by
  rcases hbad with h | h | ⟨m, hm, hsm⟩
  · subst h
    exact Or.inl rfl
  · subst h
    exact Or.inl rfl
  · subst hm
    unfold POST
    by_cases h1 : m = []
    · simp [if_pos h1]
    · simp [if_neg h1, if_pos hsm]

/-- C2 counterexample: the claim says that a request whose body is absent or
not parseable yields a 400 client error and never a 500.  In the source,
`request.json()` throwing is caught only by the outer catch, which responds
with status 500 and a fallback-shaped body (no `error` field). -/
theorem C2_unparseable_counterexample :
    (POST none "a" 0 false .err 0 emptyStore).1 =
      some ⟨500, chatBody (FALLBACK_RESPONSES 0) true 0⟩ ∧
    (500 : Nat) ≠ 400 := by
  decide

/-- C2 amended: for a request whose body parses, the response has status 400
iff the message field is absent/non-string (including every falsy value) or
the message sanitizes to the empty string; every 400 carries an `{error}`
body, and no parseable-body request is answered with a 500.  A request whose
body is absent or unparseable, however, is answered with status 500 and a
fallback-shaped body (`message` from the pool, no `error` field). -/
theorem C2_amended_400_iff_bad_message :
    ∀ (mf : MsgField) (ip : String) (now : Nat) (key : Bool) (up : Upstream)
      (rand : Fin 5) (s : Store),
      ((∃ r, (POST (some mf) ip now key up rand s).1 = some r ∧ r.status = 400) ↔
        (mf = .missing ∨ mf = .nonString ∨
          ∃ m, mf = .str m ∧ sanitizeInput m = [])) ∧
      (∀ r, (POST (some mf) ip now key up rand s).1 = some r → r.status = 400 →
         (r.body.error = some MSG_REQUIRED ∨ r.body.error = some MSG_INVALID)) ∧
      (∀ r, (POST (some mf) ip now key up rand s).1 = some r → r.status ≠ 500) ∧
      ((POST (none : Option MsgField) ip now key up rand s).1 =
        some ⟨500, chatBody (FALLBACK_RESPONSES rand) true 0⟩) := by
  intro mf ip now key up rand s
  have main : ∀ r, (POST (some mf) ip now key up rand s).1 = some r →
      (r = ⟨400, errBody MSG_REQUIRED⟩ ∨ r = ⟨400, errBody MSG_INVALID⟩) ∨
      r.status = 200 := by
    intro r h
    cases mf with
    | missing =>
        cases h
        exact Or.inl (Or.inl rfl)
    | nonString =>
        cases h
        exact Or.inl (Or.inl rfl)
    | str m =>
        by_cases h1 : m = []
        · subst h1
          cases h
          exact Or.inl (Or.inl rfl)
        · by_cases h2 : sanitizeInput m = []
          · unfold POST at h
            simp only [if_neg h1, if_pos h2] at h
            cases h
            exact Or.inl (Or.inr rfl)
          · exact Or.inr (POST_good_status m ip now key up rand s h1 h2 r h)
  refine ⟨⟨?_, ?_⟩, ?_, ?_, rfl⟩
  · rintro ⟨r, hr, h400⟩
    cases mf with
    | missing => exact Or.inl rfl
    | nonString => exact Or.inr (Or.inl rfl)
    | str m =>
        refine Or.inr (Or.inr ⟨m, rfl, ?_⟩)
        by_cases h1 : m = []
        · subst h1
          rfl
        · by_cases h2 : sanitizeInput m = []
          · exact h2
          · have := POST_good_status m ip now key up rand s h1 h2 r hr
            omega
  · intro hbad
    rcases POST_bad_response mf ip now key up rand s hbad with h | h
    · exact ⟨_, h, rfl⟩
    · exact ⟨_, h, rfl⟩
  · intro r h h400
    rcases main r h with (he | he) | he
    · rw [he]
      exact Or.inl rfl
    · rw [he]
      exact Or.inr rfl
    · omega
  · intro r h
    rcases main r h with (he | he) | he
    · rw [he]; decide
    · rw [he]; decide
    · omega

theorem C2_amended_witness :
    ∃ r, (POST (some (.str "<script></script>".toList)) "a" 0 true .err 0
      emptyStore).1 = some r ∧ r.status = 400 :=
  (C2_amended_400_iff_bad_message (.str "<script></script>".toList) "a" 0 true
    .err 0 emptyStore).1.mpr
    (Or.inr (Or.inr ⟨"<script></script>".toList, rfl, by decide⟩))

/-- C4: when the caller's quota is exhausted, the POST handler responds with
HTTP 200 (the `NextResponse.json` default, not a 4xx/5xx), `fallback = true`,
`remaining = 0`, and the fixed daily-limit message, which is not one of the
five pool-drawn fallback strings. -/
theorem C4_quota_exhausted_degrades :
    ∀ (m : List Char) (ip : String) (now : Nat) (key : Bool) (up : Upstream)
      (rand : Fin 5) (s : Store),
      ¬ m = [] → ¬ sanitizeInput m = [] →
      (checkRateLimit ip now s).1.allowed = false →
      (POST (some (.str m)) ip now key up rand s =
        (some ⟨200, chatBody LIMIT_MESSAGE true 0⟩, (checkRateLimit ip now s).2)) ∧
      (∀ i : Fin 5, FALLBACK_RESPONSES i ≠ LIMIT_MESSAGE) := by
  intro m ip now key up rand s hm hsm hq
  refine ⟨?_, by decide⟩
  unfold POST
  simp only [if_neg hm, if_neg hsm, if_pos hq]

theorem C4_quota_exhausted_degrades_witness :
    POST (some (.str "hi".toList)) "a" 0 true .err 0 storeFull =
      (some ⟨200, chatBody LIMIT_MESSAGE true 0⟩,
       (checkRateLimit "a" 0 storeFull).2) :=
  (C4_quota_exhausted_degrades "hi".toList "a" 0 true .err 0 storeFull
    (by decide) (by decide) (by decide)).1

/-- C5: for a message that survives sanitization and a quota check that
allows the request, a missing upstream credential, an upstream error, and an
upstream empty text all produce HTTP 200 with `fallback = true`, a message
from the fixed 5-string pool (the one selected by `rand`), and `remaining`
exactly as computed at quota-consume time. -/
theorem C5_upstream_failure_fallback :
    ∀ (m : List Char) (ip : String) (now : Nat) (up : Upstream) (rand : Fin 5)
      (s : Store),
      ¬ m = [] → ¬ sanitizeInput m = [] →
      (checkRateLimit ip now s).1.allowed = true →
      (POST (some (.str m)) ip now false up rand s =
         (some ⟨200, chatBody (FALLBACK_RESPONSES rand) true
            (checkRateLimit ip now s).1.remaining⟩, (checkRateLimit ip now s).2)) ∧
      ((up = .err ∨ up = .text []) →
         POST (some (.str m)) ip now true up rand s =
           (some ⟨200, chatBody (FALLBACK_RESPONSES rand) true
              (checkRateLimit ip now s).1.remaining⟩, (checkRateLimit ip now s).2)) ∧
      (∃ i : Fin 5, FALLBACK_RESPONSES rand = FALLBACK_RESPONSES i) := by
  intro m ip now up rand s hm hsm hq
  have hq' : ¬ (checkRateLimit ip now s).1.allowed = false := by simp [hq]
  refine ⟨?_, ?_, ⟨rand, rfl⟩⟩
  · unfold POST
    simp only [if_neg hm, if_neg hsm, if_neg hq']
    simp
  · rintro (h | h) <;> subst h <;>
      · unfold POST
        simp [if_neg hm, if_neg hsm, if_neg hq']

theorem C5_upstream_failure_fallback_witness :
    POST (some (.str "hi".toList)) "a" 0 true .err 0 emptyStore =
      (some ⟨200, chatBody (FALLBACK_RESPONSES 0) true 49⟩,
       (checkRateLimit "a" 0 emptyStore).2) := by
  have h := (C5_upstream_failure_fallback "hi".toList "a" 0 .err 0 emptyStore
    (by decide) (by decide) (by decide)).2.1 (Or.inl rfl)
  have e : (checkRateLimit "a" 0 emptyStore).1.remaining = 49 := by decide
  rw [e] at h
  exact h

/-- C9 counterexample: the claim says the upstream model call is bounded by a
timeout whose expiry is treated as an upstream failure, so that no request
handler blocks indefinitely.  The source awaits `model.generateContent` with
no timeout, race or abort signal: with an upstream call that never settles,
the handler produces no response at all. -/
theorem C9_no_timeout_counterexample :
    (POST (some (.str "hi".toList)) "a" 0 true .hang 0 emptyStore).1 = none := by
  decide

/-- C9 amended: no timeout bounds the upstream call.  Upstream errors and
empty responses are converted into the fallback path, but the handler fails
to respond (awaits forever) exactly when the message is valid, the quota
allows the request, a credential is configured, and the upstream call never
settles. -/
theorem C9_amended_unbounded_upstream :
    ∀ (body : Option MsgField) (ip : String) (now : Nat) (key : Bool)
      (up : Upstream) (rand : Fin 5) (s : Store),
      (POST body ip now key up rand s).1 = none ↔
        (up = .hang ∧ key = true ∧
         ∃ m, body = some (.str m) ∧ ¬ m = [] ∧ ¬ sanitizeInput m = [] ∧
           (checkRateLimit ip now s).1.allowed = true) := by
  intro body ip now key up rand s
  constructor
  · intro h
    cases body with
    | none => simp [POST] at h
    | some mf =>
        cases mf with
        | missing => simp [POST] at h
        | nonString => simp [POST] at h
        | str m =>
            by_cases h1 : m = []
            · unfold POST at h
              simp only [if_pos h1] at h
              simp at h
            · by_cases h2 : sanitizeInput m = []
              · unfold POST at h
                simp only [if_neg h1, if_pos h2] at h
                simp at h
              · by_cases h3 : (checkRateLimit ip now s).1.allowed = false
                · unfold POST at h
                  simp only [if_neg h1, if_neg h2, if_pos h3] at h
                  simp at h
                · by_cases h4 : key = false
                  · unfold POST at h
                    simp only [if_neg h1, if_neg h2, if_neg h3, if_pos h4] at h
                    simp at h
                  · have hkey : key = true := by
                      cases key
                      · exact absurd rfl h4
                      · rfl
                    have hq : (checkRateLimit ip now s).1.allowed = true := by
                      cases hb : (checkRateLimit ip now s).1.allowed
                      · exact absurd hb h3
                      · rfl
                    cases up with
                    | text t =>
                        unfold POST at h
                        by_cases h5 : t = []
                        · simp only [if_neg h1, if_neg h2, if_neg h3, if_neg h4,
                            if_pos h5] at h
                          simp at h
                        · simp only [if_neg h1, if_neg h2, if_neg h3, if_neg h4,
                            if_neg h5] at h
                          simp at h
                    | err =>
                        unfold POST at h
                        simp only [if_neg h1, if_neg h2, if_neg h3, if_neg h4] at h
                        simp at h
                    | hang =>
                        exact ⟨rfl, hkey, m, rfl, h1, h2, hq⟩
  · rintro ⟨hup, hkey, m, hbody, hm, hsm, hq⟩
    subst hup
    subst hkey
    subst hbody
    have hq' : ¬ (checkRateLimit ip now s).1.allowed = false := by simp [hq]
    unfold POST
    simp only [if_neg hm, if_neg hsm, if_neg hq']
    simp

theorem C9_amended_unbounded_upstream_witness :
    (POST (some (.str "ok".toList)) "b" 0 true .hang 2 emptyStore).1 = none :=
  (C9_amended_unbounded_upstream (some (.str "ok".toList)) "b" 0 true .hang 2
    emptyStore).mpr ⟨rfl, rfl, "ok".toList, rfl, by decide, by decide, by decide⟩

/-- Running any number of GET probes in sequence, each at its own time. -/
def peekMany (ip : String) (ts : List Nat) (s : Store) : Store :=
  ts.foldl (fun st t => (GET ip t false st).2) s

theorem checkRateLimit_of_sweep (ip2 : String) (now2 t : Nat) (s : Store)
    (h : t ≤ now2) :
    checkRateLimit ip2 now2 (sweep t s) = checkRateLimit ip2 now2 s := by
  unfold checkRateLimit
  rw [sweep_sweep t now2 s h]

/-- C7: the GET status handler never creates or increments a quota record —
every record present after a probe was already present, unchanged, before it
(the probe only runs the expiry sweep) — and probing any number of times
between two `checkRateLimit` calls leaves the next `checkRateLimit`'s result
(both the returned `remaining` and the resulting store) exactly as it would
have been without the probes, provided the probes happen no later than that
next call (time moves forward between requests). -/
theorem C7_peek_is_read_only :
    (∀ (ip : String) (now : Nat) (s : Store) (k : String) (r : QuotaRecord),
       (GET ip now false s).2 k = some r → s k = some r) ∧
    (∀ (ip ip2 : String) (ts : List Nat) (now2 : Nat) (s : Store),
       (∀ t ∈ ts, t ≤ now2) →
       checkRateLimit ip2 now2 (peekMany ip ts s) =
         checkRateLimit ip2 now2 s) := by
  constructor
  · intro ip now s k r h
    rw [GET_store] at h
    exact (sweep_some now s k r h).1
  · intro ip ip2 ts now2 s hts
    induction ts generalizing s with
    | nil => rfl
    | cons t rest ih =>
        have h1 : t ≤ now2 := hts t (List.mem_cons_self t rest)
        have hrest : ∀ u ∈ rest, u ≤ now2 := fun u hu =>
          hts u (List.mem_cons_of_mem t hu)
        have hstep : peekMany ip (t :: rest) s =
            peekMany ip rest ((GET ip t false s).2) := rfl
        rw [hstep, GET_store]
        rw [ih (sweep t s) hrest]
        exact checkRateLimit_of_sweep ip2 now2 t s h1

theorem C7_peek_is_read_only_witness :
    checkRateLimit "a" 5 (peekMany "b" [3] emptyStore) =
      checkRateLimit "a" 5 emptyStore :=
  C7_peek_is_read_only.2 "b" "a" [3] 5 emptyStore
    (by intro t ht; simp at ht; omega)

/-- C8 counterexample: the claim says every 500 response from the gateway,
the GET status handler included, carries a renderable fallback message.  The
GET handler's catch path responds 500 with body `{remaining: 0, resetTime}`:
no `message` (and no `error`) field at all. -/
theorem C8_GET_500_counterexample :
    (GET "a" 0 true emptyStore).1.status = 500 ∧
    (GET "a" 0 true emptyStore).1.body.message = none ∧
    (GET "a" 0 true emptyStore).1.body.error = none := by
  decide

theorem GET_ok_status (ip : String) (now : Nat) (s : Store) :
    (GET ip now false s).1.status = 200 := by
  cases hs : sweep now s ip with
  | none => rw [GET_fresh ip now s hs]
  | some u => rw [GET_live ip now s u hs]

/-- C8 amended: every 500 response from the POST handler carries a
fallback-pool message tagged `fallback = true`, but the GET handler's only
500 response carries the bare body `{remaining: 0, resetTime: now + 24h}`
with no message text. -/
theorem C8_amended_500_bodies :
    (∀ (body : Option MsgField) (ip : String) (now : Nat) (key : Bool)
       (up : Upstream) (rand : Fin 5) (s : Store) (r : HttpResponse),
       (POST body ip now key up rand s).1 = some r → r.status = 500 →
       r.body.message = some (FALLBACK_RESPONSES rand) ∧
       r.body.fallback = some true) ∧
    (∀ (ip : String) (now : Nat) (fault : Bool) (s : Store),
       (GET ip now fault s).1.status = 500 →
       (GET ip now fault s).1.body.message = none ∧
       (GET ip now fault s).1.body = quotaBody 0 (now + windowMs)) := by
  constructor
  · intro body ip now key up rand s r h h500
    cases body with
    | none =>
        cases h
        exact ⟨rfl, rfl⟩
    | some mf =>
        exfalso
        cases mf with
        | missing => cases h; exact absurd h500 (by decide)
        | nonString => cases h; exact absurd h500 (by decide)
        | str m =>
            by_cases h1 : m = []
            · subst h1
              cases h
              exact absurd h500 (by decide)
            · by_cases h2 : sanitizeInput m = []
              · unfold POST at h
                simp only [if_neg h1, if_pos h2] at h
                cases h
                exact absurd h500 (by decide)
              · have := POST_good_status m ip now key up rand s h1 h2 r h
                omega
  · intro ip now fault s h500
    cases fault with
    | true => exact ⟨rfl, rfl⟩
    | false =>
        rw [GET_ok_status] at h500
        omega

theorem C8_amended_500_bodies_witness :
    (GET "a" 0 true emptyStore).1.body.message = none ∧
    (GET "a" 0 true emptyStore).1.body = quotaBody 0 (0 + windowMs) :=
  C8_amended_500_bodies.2 "a" 0 true emptyStore (by decide)

/-- A sequence of consuming calls at the given times. -/
def consumeMany (ip : String) (ts : List Nat) (s : Store) : Store :=
  ts.foldl (fun st t => (checkRateLimit ip t st).2) s

theorem consumeMany_count (ip : String) :
    ∀ (ts : List Nat) (s : Store) (c rt : Nat),
      s ip = some ⟨c, rt⟩ → c + ts.length ≤ 50 → (∀ t ∈ ts, t ≤ rt) →
      consumeMany ip ts s ip = some ⟨c + ts.length, rt⟩ := by
  intro ts
  induction ts with
  | nil =>
      intro s c rt h _ _
      simpa [consumeMany] using h
  | cons t rest ih =>
      intro s c rt h hlen hts
      have ht : t ≤ rt := hts t (List.mem_cons_self t rest)
      have hc : c < dailyLimit := by
        unfold dailyLimit
        simp only [List.length_cons] at hlen
        omega
      have hsw : sweep t s ip = some ⟨c, rt⟩ := sweep_live t s ip _ h ht
      have e := checkRateLimit_incr ip t s ⟨c, rt⟩ hsw hc
      have hstep : consumeMany ip (t :: rest) s =
          consumeMany ip rest (checkRateLimit ip t s).2 := rfl
      rw [hstep, e]
      have hset : setStore (sweep t s) ip ⟨c + 1, rt⟩ ip = some ⟨c + 1, rt⟩ :=
        setStore_self _ _ _
      have hrec := ih (setStore (sweep t s) ip ⟨c + 1, rt⟩) (c + 1) rt hset
        (by simp only [List.length_cons] at hlen; omega)
        (fun u hu => hts u (List.mem_cons_of_mem t hu))
      simp only [List.length_cons]
      rw [show c + (rest.length + 1) = (c + 1) + rest.length by omega]
      exact hrec

/-- C10: after `k = ts.length + 1` consuming calls (all within the window
opened by the first call at `t0`, with `k ≤ 50`), GET reports `remaining =
50 - k` together with the stored reset time `t0 + 24h`.  For a caller with no
record or only an expired one it reports `remaining = 50` (not 49) and a
`resetTime` of `now + 24h` computed freshly at probe time, so two probes of
an unseen caller at different times report different reset times. -/
theorem C10_status_reporting :
    (∀ (ip : String) (t0 : Nat) (ts : List Nat) (s : Store) (now : Nat),
       s ip = none → ts.length + 1 ≤ 50 →
       (∀ t ∈ ts, t ≤ t0 + windowMs) → now ≤ t0 + windowMs →
       (GET ip now false (consumeMany ip ts (checkRateLimit ip t0 s).2)).1 =
         ⟨200, quotaBody (50 - (ts.length + 1)) (t0 + windowMs)⟩) ∧
    (∀ (ip : String) (now : Nat) (s : Store), sweep now s ip = none →
       (GET ip now false s).1 = ⟨200, quotaBody 50 (now + windowMs)⟩) ∧
    (∀ (ip : String) (n1 n2 : Nat) (s1 s2 : Store),
       sweep n1 s1 ip = none → sweep n2 s2 ip = none → n1 ≠ n2 →
       (GET ip n1 false s1).1.body.resetTime ≠
         (GET ip n2 false s2).1.body.resetTime) := by
  refine ⟨?_, ?_, ?_⟩
  · intro ip t0 ts s now h0 hlen hts hnow
    have hsw0 : sweep t0 s ip = none := sweep_none t0 s ip h0
    rw [checkRateLimit_fresh ip t0 s hsw0]
    have h1 : setStore (sweep t0 s) ip ⟨1, t0 + windowMs⟩ ip =
        some ⟨1, t0 + windowMs⟩ := setStore_self _ _ _
    have hcount := consumeMany_count ip ts
      (setStore (sweep t0 s) ip ⟨1, t0 + windowMs⟩) 1 (t0 + windowMs) h1
      (by omega) hts
    have hswG := sweep_live now
      (consumeMany ip ts (setStore (sweep t0 s) ip ⟨1, t0 + windowMs⟩)) ip
      ⟨1 + ts.length, t0 + windowMs⟩ hcount hnow
    rw [GET_live _ _ _ _ hswG]
    have harith : dailyLimit - (⟨1 + ts.length, t0 + windowMs⟩ : QuotaRecord).count =
        50 - (ts.length + 1) := by
      unfold dailyLimit
      simp
      omega
    rw [harith]
  · intro ip now s h
    rw [GET_fresh ip now s h]
    rfl
  · intro ip n1 n2 s1 s2 h1 h2 hne
    rw [GET_fresh ip n1 s1 h1, GET_fresh ip n2 s2 h2]
    intro heq
    simp [quotaBody] at heq
    omega

theorem C10_status_reporting_witness :
    (GET "a" 10 false (consumeMany "a" [1, 2] (checkRateLimit "a" 0 emptyStore).2)).1 =
      ⟨200, quotaBody 47 (0 + windowMs)⟩ := by
  have h := C10_status_reporting.1 "a" 0 [1, 2] emptyStore 10 rfl (by norm_num)
    (by intro t ht; simp at ht; unfold windowMs; omega)
    (by unfold windowMs; omega)
  have e : (50 : Nat) - (([1, 2] : List Nat).length + 1) = 47 := by decide
  rw [e] at h
  exact h
